import Mathlib

/-!
Shallow embedding of the guiug scene-graph layout engine
(src/scene.rs, src/texture.rs, src/types.rs) and proofs about it.

Modelling conventions:
* Rust `i32` is modelled as `Int` (the claims never probe wrap-around, and
  the source would panic on overflow in debug builds before any value is
  returned).
* Rust `f32` ratio values are modelled as `ℚ`; the f32 multiplication
  `extent as f32 * r` is modelled as exact rational multiplication.  This is
  faithful whenever operands and product are exactly representable in f32,
  which holds for every concrete input used below.
* The Rust cast `as i32` on a float value rounds toward zero; on an exact
  rational value this is truncating division of numerator by denominator
  (`Int.tdiv`).  Saturation at the i32 bounds is outside the modelled range.
* Rust `i32` division `/` truncates toward zero and is modelled by
  `Int.tdiv`.
* `std::collections::HashMap` is modelled as an association list; the Rust
  `entry(id).insert_entry(node)` (insert or overwrite) is modelled by
  prepending, so that lookup (first match) sees the new binding.
-/

/-- Rust cast `q as i32` applied to an exact rational value: rounds toward
zero, i.e. truncating division of the numerator by the denominator. -/
def ratTruncToInt (q : ℚ) : Int :=
  Int.tdiv q.num (q.den : Int)

/-- Dimension from src/types.rs: a (width, height) extent in pixels. -/
structure Dimension where
  width : Int
  height : Int
deriving DecidableEq, Repr

/-- Rect from src/types.rs: axis-aligned rectangle, origin plus size. -/
structure Rect where
  x : Int
  y : Int
  w : Int
  h : Int
deriving DecidableEq, Repr

/-- Rect::dimension from src/types.rs. -/
def Rect.dimension (r : Rect) : Dimension :=
  { width := r.w, height := r.h }

/-- Size from src/scene.rs: absolute pixels or a ratio of the parent or
screen extent. -/
inductive Size where
  | Pixel : Int → Size
  | ParentWidth : ℚ → Size
  | ParentHeight : ℚ → Size
  | ScreenWidth : ℚ → Size
  | ScreenHeight : ℚ → Size
deriving DecidableEq, Repr

/-- Size::resolve from src/scene.rs lines 187-195: a Pixel is returned as
is; a ratio variant multiplies the referenced extent by the ratio in f32
and casts the product back to i32 (truncation toward zero). -/
def Size.resolve (s : Size) (parent_size screen_size : Dimension) : Int :=
  match s with
  | Size.Pixel p => p
  | Size.ParentWidth r => ratTruncToInt ((parent_size.width : ℚ) * r)
  | Size.ParentHeight r => ratTruncToInt ((parent_size.height : ℚ) * r)
  | Size.ScreenWidth r => ratTruncToInt ((screen_size.width : ℚ) * r)
  | Size.ScreenHeight r => ratTruncToInt ((screen_size.height : ℚ) * r)

/-- The size resolver as the specification words it (spec 4.1): the ratio
variants return the product rounded to the nearest integer.  Stated only to
be compared against Size.resolve, which is the code's behaviour. -/
def Size.resolveRoundSpec (s : Size) (parent_size screen_size : Dimension) : Int :=
  match s with
  | Size.Pixel p => p
  | Size.ParentWidth r => round ((parent_size.width : ℚ) * r)
  | Size.ParentHeight r => round ((parent_size.height : ℚ) * r)
  | Size.ScreenWidth r => round ((screen_size.width : ℚ) * r)
  | Size.ScreenHeight r => round ((screen_size.height : ℚ) * r)

/-- Anchor from src/scene.rs: one-axis placement rule. -/
inductive Anchor where
  | Start : Size → Size → Anchor
  | Center : Size → Size → Anchor
  | End : Size → Size → Anchor
  | Stretch : Size → Size → Anchor
deriving DecidableEq, Repr

/-- Anchor::apply from src/scene.rs lines 113-142: resolves an anchor
against the parent origin and length on one axis (plus the parent and
screen extents for ratio sizes) into an (origin, length) pair.  The i32
division by 2 in the Center arm truncates toward zero. -/
def Anchor.apply (a : Anchor) (parent_pos parent_size_curr : Int)
    (parent_size screen_size : Dimension) : Int × Int :=
  match a with
  | Anchor.Start start size =>
      (parent_pos + start.resolve parent_size screen_size,
       size.resolve parent_size screen_size)
  | Anchor.Center pos size =>
      (parent_pos + Int.tdiv parent_size_curr 2 + pos.resolve parent_size screen_size
         - Int.tdiv (size.resolve parent_size screen_size) 2,
       size.resolve parent_size screen_size)
  | Anchor.End e size =>
      (parent_pos + parent_size_curr - e.resolve parent_size screen_size
         - size.resolve parent_size screen_size,
       size.resolve parent_size screen_size)
  | Anchor.Stretch start e =>
      let left := parent_pos + start.resolve parent_size screen_size
      let right := parent_pos + parent_size_curr - e.resolve parent_size screen_size
      (left, right - left)

/-- Position from src/scene.rs: a horizontal and a vertical anchor. -/
structure Position where
  horizontal : Anchor
  vertical : Anchor
deriving DecidableEq, Repr

/-- Position::apply from src/scene.rs lines 75-89: resolve the horizontal
anchor against (x, w) and the vertical anchor against (y, h), both with the
parent rectangle's dimension and the screen size, and combine. -/
def Position.apply (p : Position) (parent_rect : Rect) (screen_size : Dimension) : Rect :=
  let xw := p.horizontal.apply parent_rect.x parent_rect.w parent_rect.dimension screen_size
  let yh := p.vertical.apply parent_rect.y parent_rect.h parent_rect.dimension screen_size
  { x := xw.1, y := yh.1, w := xw.2, h := yh.2 }

/-- Vec4 colour payload (glam::Vec4 in the source); the engine never
computes with the channels, so they are carried opaquely as rationals. -/
structure Vec4 where
  r : ℚ
  g : ℚ
  b : ℚ
  a : ℚ
deriving DecidableEq, Repr

/-- NodeId from src/scene.rs (u32 in the source; the modelled range is the
naturals, see the overflow note at the top of the file). -/
abbrev NodeId := Nat

/-- TextureId from src/texture.rs (u16 in the source). -/
abbrev TextureId := Nat

/-- Node from src/scene.rs: a layer of positioned children, a flat-colour
rectangle, or a textured rectangle. -/
inductive Node where
  | Layer : List (Position × NodeId) → Node
  | Rect : Vec4 → Node
  | Texture : TextureId → Node
deriving DecidableEq, Repr

/-- Scene from src/scene.rs: id counter, node table and optional root. -/
structure Scene where
  last_id : NodeId
  nodes : List (NodeId × Node)
  root_node : Option NodeId
deriving DecidableEq, Repr

/-- Scene::default (derived Default in the source): counter 0, empty table,
no root. -/
def Scene.init : Scene :=
  { last_id := 0, nodes := [], root_node := none }

/-- Scene::insert from src/scene.rs lines 24-29: hand out the current
counter value as the id, bump the counter, bind the node under the id.
Rust mutates the scene and returns the id; modelled as returning both. -/
def Scene.insert (s : Scene) (node : Node) : NodeId × Scene :=
  let id := s.last_id
  (id, { s with last_id := s.last_id + 1, nodes := (id, node) :: s.nodes })

/-- Scene::get from src/scene.rs lines 31-33: HashMap lookup. -/
def Scene.get (s : Scene) (id : NodeId) : Option Node :=
  (s.nodes.find? (fun p => p.1 == id)).map (fun p => p.2)

/-- Scene::set_root from src/scene.rs lines 20-22. -/
def Scene.set_root (s : Scene) (root_node : NodeId) : Scene :=
  { s with root_node := some root_node }

/-- Scene::layer_node from src/scene.rs lines 35-38. -/
def Scene.layer_node (s : Scene) (inner : List (Position × NodeId)) : NodeId × Scene :=
  s.insert (Node.Layer inner)

/-- Scene::rect_node from src/scene.rs lines 40-43. -/
def Scene.rect_node (s : Scene) (color : Vec4) : NodeId × Scene :=
  s.insert (Node.Rect color)

/-- Scene::texture_node from src/scene.rs lines 45-48. -/
def Scene.texture_node (s : Scene) (texture_id : TextureId) : NodeId × Scene :=
  s.insert (Node.Texture texture_id)

/-- One public node-insertion call on a Scene, used to quantify over
arbitrary sequences of insertions. -/
inductive InsertCall where
  | layerCall : List (Position × NodeId) → InsertCall
  | rectCall : Vec4 → InsertCall
  | textureCall : TextureId → InsertCall
deriving DecidableEq, Repr

/-- Dispatch one insertion call to the public builder it names. -/
def Scene.runCall (s : Scene) : InsertCall → NodeId × Scene
  | InsertCall.layerCall inner => s.layer_node inner
  | InsertCall.rectCall c => s.rect_node c
  | InsertCall.textureCall t => s.texture_node t

/-- Run a sequence of insertion calls, collecting the returned ids in call
order. -/
def Scene.runCalls (s : Scene) : List InsertCall → List NodeId × Scene
  | [] => ([], s)
  | c :: cs =>
      let r1 := s.runCall c
      let r2 := r1.2.runCalls cs
      (r1.1 :: r2.1, r2.2)

/-- TextureInfoManager from src/texture.rs: id counter plus table from
texture id to the registered raw image bytes. -/
structure TextureInfoManager where
  last_id : TextureId
  texture_infos : List (TextureId × List Nat)
deriving DecidableEq, Repr

/-- TextureInfoManager::default (derived Default in the source). -/
def TextureInfoManager.init : TextureInfoManager :=
  { last_id := 0, texture_infos := [] }

/-- TextureInfoManager::add_texture_info from src/texture.rs lines 14-21:
hand out the current counter as the id, bump the counter, bind the bytes
under the id. -/
def TextureInfoManager.add_texture_info (m : TextureInfoManager) (data : List Nat) :
    TextureId × TextureInfoManager :=
  let id := m.last_id
  (id, { m with last_id := m.last_id + 1, texture_infos := (id, data) :: m.texture_infos })

/-- Run a sequence of texture registrations, collecting the returned ids in
registration order. -/
def TextureInfoManager.addAll (m : TextureInfoManager) : List (List Nat) →
    List TextureId × TextureInfoManager
  | [] => ([], m)
  | d :: ds =>
      let r1 := m.add_texture_info d
      let r2 := r1.2.addAll ds
      (r1.1 :: r2.1, r2.2)

/-- Clamp a rectangle's width and height to a minimum of zero; the spec
(section 7) requires this exactly at the point of primitive emission. -/
def Rect.clampWH (r : Rect) : Rect :=
  { r with w := max 0 r.w, h := max 0 r.h }

/-- Draw primitive handed to the rendering collaborator: rectangle,
draw-order index, and either a flat colour or a texture id. -/
inductive DrawPrim where
  | flat : Rect → Nat → Vec4 → DrawPrim
  | textured : Rect → Nat → TextureId → DrawPrim
deriving DecidableEq, Repr

/-- Modelled from the spec: the layout/paint visitor of spec section 4.5 is
absent from src (src/lib.rs is an earlier revision without the scene-tree
walk), so its per-node behaviour is taken from the spec's words, restricted
to the node kinds that exist in src/scene.rs: visiting an id absent from
the table is a silent no-op; a Layer resolves each child position against
the current rectangle, recurses, then increments the draw-order counter by
one; Rect and Texture leaves emit one primitive tagged with the current
counter, clamping negative extents to zero at emission.  The fuel argument
bounds recursion depth (the Rust original would recurse unboundedly on a
cyclic child reference). -/
def visitNode (s : Scene) (screen_size : Dimension) :
    Nat → Rect → Nat → NodeId → List DrawPrim × Nat
  | 0, _, counter, _ => ([], counter)
  | Nat.succ fuel, rect, counter, id =>
      match s.get id with
      | none => ([], counter)
      | some (Node.Layer inner) =>
          inner.foldl
            (fun acc pc =>
              let child_rect := pc.1.apply rect screen_size
              let res := visitNode s screen_size fuel child_rect acc.2 pc.2
              (acc.1 ++ res.1, res.2 + 1))
            ([], counter)
      | some (Node.Rect c) => ([DrawPrim.flat rect.clampWH counter c], counter)
      | some (Node.Texture tid) => ([DrawPrim.textured rect.clampWH counter tid], counter)

/-- C5: resolving Pixel(p) returns exactly p, for every parent and screen
extent; in particular the result never changes when either extent does. -/
theorem pixel_resolve_invariant (p : Int) (pd sd : Dimension) :
    (Size.Pixel p).resolve pd sd = p
  ∧ ∀ pd2 sd2 : Dimension, (Size.Pixel p).resolve pd sd = (Size.Pixel p).resolve pd2 sd2 :=
  ⟨rfl, fun _ _ => rfl⟩

/-- C2: resolving the anchor Stretch with start = Pixel 0 and end = Pixel 0
against any parent origin and length on one axis yields exactly that origin
and that full length, for every parent and screen extent. -/
theorem stretch_zero_is_identity (p L : Int) (pd sd : Dimension) :
    (Anchor.Stretch (Size.Pixel 0) (Size.Pixel 0)).apply p L pd sd = (p, L) := by
  simp [Anchor.apply, Size.resolve]

/-- C3: resolving a Center anchor yields child origin
parent origin + parent length / 2 + resolve(pos) - resolve(size) / 2 and
child length resolve(size), where division is the i32 division of the code
(truncation toward zero). -/
theorem center_anchor_formula (pos size : Size) (p L : Int) (pd sd : Dimension) :
    (Anchor.Center pos size).apply p L pd sd
      = (p + Int.tdiv L 2 + pos.resolve pd sd - Int.tdiv (size.resolve pd sd) 2,
         size.resolve pd sd) := rfl

/-- C6: a Stretch anchor's resolved length is exactly the parent length
minus the resolved start and end margins, with no clamping; when the
margins together exceed the parent length the resolved length is
negative. -/
theorem stretch_length_no_clamp (start e : Size) (p L : Int) (pd sd : Dimension) :
    ((Anchor.Stretch start e).apply p L pd sd).2
        = L - start.resolve pd sd - e.resolve pd sd
  ∧ (L < start.resolve pd sd + e.resolve pd sd →
      ((Anchor.Stretch start e).apply p L pd sd).2 < 0) := by
  constructor
  · simp [Anchor.apply]
    ring
  · intro h
    simp [Anchor.apply]
    omega

/-- Witness for C6 at a concrete overflowing input: margins 60 + 60 exceed
a parent length of 100, so the resolved length comes out negative. -/
theorem stretch_length_no_clamp_witness :
    ((Anchor.Stretch (Size.Pixel 60) (Size.Pixel 60)).apply 0 100 ⟨100, 100⟩ ⟨100, 100⟩).2 < 0 :=
  (stretch_length_no_clamp (Size.Pixel 60) (Size.Pixel 60) 0 100 ⟨100, 100⟩ ⟨100, 100⟩).2
    (by decide)

/-- C7: the two axes of Position::apply never interact: two positions with
the same horizontal anchor resolve to the same x and width against the same
parent rectangle and screen extent, whatever their vertical anchors, and
symmetrically for the vertical axis. -/
theorem position_axes_independent (p1 p2 : Position) (r : Rect) (sd : Dimension) :
    (p1.horizontal = p2.horizontal →
      (p1.apply r sd).x = (p2.apply r sd).x ∧ (p1.apply r sd).w = (p2.apply r sd).w)
  ∧ (p1.vertical = p2.vertical →
      (p1.apply r sd).y = (p2.apply r sd).y ∧ (p1.apply r sd).h = (p2.apply r sd).h) := by
  constructor
  · intro h
    simp [Position.apply, h]
  · intro h
    simp [Position.apply, h]

/-- Witness for C7 at concrete inputs: two positions sharing the horizontal
anchor but with different vertical anchors get the same x and width. -/
theorem position_axes_independent_witness :
    ((Position.mk (Anchor.Start (Size.Pixel 1) (Size.Pixel 2))
        (Anchor.Start (Size.Pixel 3) (Size.Pixel 4))).apply ⟨0, 0, 10, 10⟩ ⟨20, 20⟩).x
      = ((Position.mk (Anchor.Start (Size.Pixel 1) (Size.Pixel 2))
        (Anchor.End (Size.Pixel 5) (Size.Pixel 6))).apply ⟨0, 0, 10, 10⟩ ⟨20, 20⟩).x
  ∧ ((Position.mk (Anchor.Start (Size.Pixel 1) (Size.Pixel 2))
        (Anchor.Start (Size.Pixel 3) (Size.Pixel 4))).apply ⟨0, 0, 10, 10⟩ ⟨20, 20⟩).w
      = ((Position.mk (Anchor.Start (Size.Pixel 1) (Size.Pixel 2))
        (Anchor.End (Size.Pixel 5) (Size.Pixel 6))).apply ⟨0, 0, 10, 10⟩ ⟨20, 20⟩).w :=
  (position_axes_independent
    (Position.mk (Anchor.Start (Size.Pixel 1) (Size.Pixel 2))
      (Anchor.Start (Size.Pixel 3) (Size.Pixel 4)))
    (Position.mk (Anchor.Start (Size.Pixel 1) (Size.Pixel 2))
      (Anchor.End (Size.Pixel 5) (Size.Pixel 6)))
    ⟨0, 0, 10, 10⟩ ⟨20, 20⟩).1 rfl

theorem Scene.runCall_fst (s : Scene) (c : InsertCall) : (s.runCall c).1 = s.last_id := by
  cases c <;> rfl

theorem Scene.runCall_last_id (s : Scene) (c : InsertCall) :
    (s.runCall c).2.last_id = s.last_id + 1 := by
  cases c <;> rfl

theorem Scene.runCalls_ids (s : Scene) (cs : List InsertCall) :
    (s.runCalls cs).1 = (List.range cs.length).map (fun i => s.last_id + i) := by
  induction cs generalizing s with
  | nil => simp [Scene.runCalls]
  | cons c cs ih =>
      simp only [Scene.runCalls, List.length_cons, List.range_succ_eq_map, List.map_cons,
        List.map_map, ih, Scene.runCall_fst, Scene.runCall_last_id]
      refine List.cons_eq_cons.mpr ⟨by simp, ?_⟩
      simp only [List.map_inj_left, Function.comp_apply, List.mem_range]
      intro a _
      simp only [Nat.succ_eq_add_one]
      ring

/-- C4: every sequence of public node insertions on a fresh scene, through
layer_node, rect_node or texture_node in any mix, returns exactly the ids
0, 1, 2, ... in insertion order; in particular the ids are monotonically
increasing from 0, pairwise distinct, and never reused. -/
theorem insertion_ids_are_range (cs : List InsertCall) :
    (Scene.init.runCalls cs).1 = List.range cs.length
  ∧ (Scene.init.runCalls cs).1.Nodup := by
  have h : (Scene.init.runCalls cs).1 = List.range cs.length := by
    simp [Scene.runCalls_ids, Scene.init]
  exact ⟨h, h ▸ List.nodup_range cs.length⟩

theorem TextureInfoManager.add_fst (m : TextureInfoManager) (d : List Nat) :
    (m.add_texture_info d).1 = m.last_id := rfl

theorem TextureInfoManager.add_last_id (m : TextureInfoManager) (d : List Nat) :
    (m.add_texture_info d).2.last_id = m.last_id + 1 := rfl

theorem TextureInfoManager.addAll_ids (m : TextureInfoManager) (ds : List (List Nat)) :
    (m.addAll ds).1 = (List.range ds.length).map (fun i => m.last_id + i) := by
  induction ds generalizing m with
  | nil => simp [TextureInfoManager.addAll]
  | cons d ds ih =>
      simp only [TextureInfoManager.addAll, List.length_cons, List.range_succ_eq_map,
        List.map_cons, List.map_map, ih, TextureInfoManager.add_fst,
        TextureInfoManager.add_last_id]
      refine List.cons_eq_cons.mpr ⟨by simp, ?_⟩
      simp only [List.map_inj_left, Function.comp_apply, List.mem_range]
      intro a _
      simp only [Nat.succ_eq_add_one]
      ring

/-- C9: registering any sequence of texture byte blobs on a fresh manager
returns the ids 0, 1, 2, ... in registration order: the n-th registration,
counting from zero, returns id n. -/
theorem texture_ids_are_range (ds : List (List Nat)) :
    (TextureInfoManager.init.addAll ds).1 = List.range ds.length := by
  simp [TextureInfoManager.addAll_ids, TextureInfoManager.init]

/-- C10: inserting a node adds exactly one table entry, bound to the newly
returned id; under the scene invariant that every key in the table is below
the id counter (which holds for every scene built through insert), the
returned id was not bound before the call, every existing binding is
unchanged, and the root-node designation is unchanged. -/
theorem insert_adds_one_binding (s : Scene) (node : Node)
    (hkeys : ∀ k n, (k, n) ∈ s.nodes → k < s.last_id) :
    s.get (s.insert node).1 = none
  ∧ (s.insert node).2.get (s.insert node).1 = some node
  ∧ (∀ j : NodeId, j ≠ (s.insert node).1 → (s.insert node).2.get j = s.get j)
  ∧ (s.insert node).2.nodes.length = s.nodes.length + 1
  ∧ (s.insert node).2.root_node = s.root_node := by
  refine ⟨?_, ?_, ?_, rfl, rfl⟩
  · simp only [Scene.get, Scene.insert, Option.map_eq_none', List.find?_eq_none]
    intro p hp
    have := hkeys p.1 p.2 hp
    simp only [beq_iff_eq]
    exact Nat.ne_of_lt this
  · simp [Scene.get, Scene.insert, List.find?]
  · intro j hj
    have hj2 : (s.last_id == j) = false := by
      simp only [beq_eq_false_iff_ne, ne_eq]
      exact fun h => hj (h ▸ rfl)
    simp [Scene.get, Scene.insert, List.find?, hj2]

/-- Witness for C10 on the empty scene: inserting a rectangle node there
binds it to id 0, which was unbound before, and leaves the root unset. -/
theorem insert_adds_one_binding_witness :
    Scene.init.get (Scene.init.insert (Node.Rect ⟨1, 0, 0, 1⟩)).1 = none
  ∧ (Scene.init.insert (Node.Rect ⟨1, 0, 0, 1⟩)).2.get
      (Scene.init.insert (Node.Rect ⟨1, 0, 0, 1⟩)).1 = some (Node.Rect ⟨1, 0, 0, 1⟩)
  ∧ (Scene.init.insert (Node.Rect ⟨1, 0, 0, 1⟩)).2.nodes.length = 1
  ∧ (Scene.init.insert (Node.Rect ⟨1, 0, 0, 1⟩)).2.root_node = none :=
  have h := insert_adds_one_binding Scene.init (Node.Rect ⟨1, 0, 0, 1⟩)
    (fun k n hm => by simp [Scene.init] at hm)
  ⟨h.1, h.2.1, h.2.2.2.1, h.2.2.2.2⟩

/-- C8: looking up a NodeId that is not present in a scene's node table
yields no node and no error, and the modelled layout/paint visitor treats
such an id as a silent no-op: it emits no draw primitive and leaves the
draw-order state unchanged. -/
theorem absent_id_silent_skip (s : Scene) (screen_size : Dimension) (fuel : Nat)
    (rect : Rect) (counter : Nat) (id : NodeId)
    (habs : ∀ n : Node, (id, n) ∉ s.nodes) :
    s.get id = none
  ∧ visitNode s screen_size (fuel + 1) rect counter id = ([], counter) := by
  have hget : s.get id = none := by
    simp only [Scene.get, Option.map_eq_none', List.find?_eq_none]
    intro p hp
    simp only [beq_iff_eq]
    intro hpe
    exact habs p.2 (by rw [← hpe]; exact hp)
  refine ⟨hget, ?_⟩
  simp [visitNode, hget]

/-- Witness for C8: the empty scene holds no node 999; a visit of id 999
there completes, producing no primitive and leaving the counter at 0. -/
theorem absent_id_silent_skip_witness :
    Scene.init.get 999 = none
  ∧ visitNode Scene.init ⟨800, 600⟩ 1 ⟨0, 0, 800, 600⟩ 0 999 = ([], 0) :=
  absent_id_silent_skip Scene.init ⟨800, 600⟩ 0 ⟨0, 0, 800, 600⟩ 0 999
    (fun n hm => by simp [Scene.init] at hm)

theorem ratTruncToInt_eq (q : ℚ) :
    ratTruncToInt q = if 0 ≤ q then ⌊q⌋ else ⌈q⌉ := by
  unfold ratTruncToInt
  by_cases h : 0 ≤ q
  · rw [if_pos h, Rat.floor_def]
    exact Int.tdiv_eq_ediv (Rat.num_nonneg.mpr h) (by positivity)
  · rw [if_neg h]
    have hq : q < 0 := not_le.mp h
    have hnum : q.num < 0 := Rat.num_neg.mpr hq
    have hfloor : ⌊-q⌋ = (-q).num / ((-q).den : Int) := Rat.floor_def
    rw [Rat.num_neg_eq_neg_num, Rat.den_neg_eq_den] at hfloor
    have hch : ⌈q⌉ = -⌊-q⌋ := by rw [Int.floor_neg]; ring
    have hsw : q.num.tdiv (q.den : Int) = -((-q.num).tdiv (q.den : Int)) := by
      rw [Int.neg_tdiv]
      ring
    rw [hch, hfloor, hsw, Int.tdiv_eq_ediv (by omega) (by positivity)]

/-- C1 (amended): for every ratio and extents, the size resolver returns
the product of the ratio and the referenced extent truncated toward zero
(the floor of the product when it is nonnegative, its ceiling when it is
negative), not rounded to the nearest integer. -/
theorem resolve_truncates_toward_zero (r : ℚ) (pd sd : Dimension) :
    ((Size.ParentWidth r).resolve pd sd
        = if 0 ≤ (pd.width : ℚ) * r then ⌊(pd.width : ℚ) * r⌋ else ⌈(pd.width : ℚ) * r⌉)
  ∧ ((Size.ParentHeight r).resolve pd sd
        = if 0 ≤ (pd.height : ℚ) * r then ⌊(pd.height : ℚ) * r⌋ else ⌈(pd.height : ℚ) * r⌉)
  ∧ ((Size.ScreenWidth r).resolve pd sd
        = if 0 ≤ (sd.width : ℚ) * r then ⌊(sd.width : ℚ) * r⌋ else ⌈(sd.width : ℚ) * r⌉)
  ∧ ((Size.ScreenHeight r).resolve pd sd
        = if 0 ≤ (sd.height : ℚ) * r then ⌊(sd.height : ℚ) * r⌋ else ⌈(sd.height : ℚ) * r⌉) :=
  ⟨ratTruncToInt_eq _, ratTruncToInt_eq _, ratTruncToInt_eq _, ratTruncToInt_eq _⟩

/-- C1 counterexample: at parent width 3 and ratio 1/2 (both exactly
representable in f32, with exact product 1.5) the code's resolver truncates
to 1 while the rounding resolver the claim describes yields 2, so the two
disagree at this input. -/
theorem resolve_round_spec_counterexample :
    (Size.ParentWidth (1/2 : ℚ)).resolve ⟨3, 3⟩ ⟨100, 100⟩ = 1
  ∧ Size.resolveRoundSpec (Size.ParentWidth (1/2 : ℚ)) ⟨3, 3⟩ ⟨100, 100⟩ = 2
  ∧ (Size.ParentWidth (1/2 : ℚ)).resolve ⟨3, 3⟩ ⟨100, 100⟩
      ≠ Size.resolveRoundSpec (Size.ParentWidth (1/2 : ℚ)) ⟨3, 3⟩ ⟨100, 100⟩ := by
  have h1 : (Size.ParentWidth (1/2 : ℚ)).resolve ⟨3, 3⟩ ⟨100, 100⟩ = 1 := by
    show ratTruncToInt (((3 : Int) : ℚ) * (1/2)) = 1
    rw [ratTruncToInt_eq, if_pos (by norm_num)]
    rw [Int.floor_eq_iff]
    norm_num
  have h2 : Size.resolveRoundSpec (Size.ParentWidth (1/2 : ℚ)) ⟨3, 3⟩ ⟨100, 100⟩ = 2 := by
    show round (((3 : Int) : ℚ) * (1/2)) = 2
    norm_num [round_eq]
  exact ⟨h1, h2, by rw [h1, h2]; decide⟩
